import Mathlib

/-!
Verification of the probabilistic localization core
(`src/robot/AI/localization.rs` of `global-robot-localization`).

The Rust source is shallowly embedded over exact rationals:

* `f64` values are modelled as `ℚ`; the floating-point rounding of individual
  operations is out of scope, but branch structure, accumulation and the exact
  constants of the source are preserved.
* Numeric library routines that have no exact rational counterpart
  (`f64::sqrt`, `nalgebra`'s `symmetric_eigen` and `try_inverse`, the Euclidean
  magnitude `Point::mag` / `Point::dist`) are abstracted as explicit function
  parameters; every theorem quantifies over them, so nothing proved depends on
  their internals.
* Randomness (`thread_rng`, `WeightedIndex::sample`, resampling noise) is
  modelled by explicit streams of drawn values passed as parameters.
* A Rust `panic!` (from `Option::unwrap` / `Result::unwrap`) is modelled as the
  `.panicked` constructor of an `Except` error type: the routine aborts without
  producing a new state.
* `Point` and `NewPose` arithmetic lives in the repository's `utility.rs`,
  which is not part of the sources here; those operations are modelled from the
  spec (componentwise arithmetic) and are marked as such below.
-/

/-- Modelled from the spec: 2D point with componentwise arithmetic
(`utility.rs` is not among the sources; the spec describes
"2D point/pose arithmetic ... componentwise"). -/
@[ext]
structure Point where
  x : ℚ
  y : ℚ
deriving DecidableEq, Repr

/-- Modelled from the spec: componentwise point subtraction (`Point::sub`). -/
def Point.sub (a b : Point) : Point := ⟨a.x - b.x, a.y - b.y⟩

/-- Modelled from the spec: componentwise point addition (`Point::add`). -/
def Point.add (a b : Point) : Point := ⟨a.x + b.x, a.y + b.y⟩

/-- The origin, `Point::default()`. -/
def Point.zero : Point := ⟨0, 0⟩

/-- Modelled from the spec: the 6-DOF extended pose `NewPose` with fields
angle, position, angular velocity and linear velocity (`utility.rs` is not
among the sources; field names follow the constructor calls visible in
`localization.rs`). -/
@[ext]
structure NewPose where
  angle : ℚ
  position : Point
  vel_angle : ℚ
  velocity : Point
deriving DecidableEq, Repr

/-- Modelled from the spec: componentwise `NewPose` addition (`+=` on poses).
The spec's `get_prediction` contract states "angle is averaged linearly —
caller is responsible for wrap-around", so the 6-DOF addition is plain
componentwise addition with no angle canonicalisation. -/
def NewPose.add (a b : NewPose) : NewPose :=
  ⟨a.angle + b.angle, a.position.add b.position,
   a.vel_angle + b.vel_angle, a.velocity.add b.velocity⟩

/-- Modelled from the spec: componentwise scalar division of a pose. -/
def NewPose.divScalar (p : NewPose) (c : ℚ) : NewPose :=
  ⟨p.angle / c, ⟨p.position.x / c, p.position.y / c⟩,
   p.vel_angle / c, ⟨p.velocity.x / c, p.velocity.y / c⟩⟩

/-- `NewPose::default()`: origin, zero heading, zero velocities. -/
def NewPose.zero : NewPose := ⟨0, Point.zero, 0, Point.zero⟩

/-!
### `NewPoseBelief::from_distributions`

The Rust constructor zips three independent sample iterators (x, y, angle),
takes `max_particle_count` of them, and builds each particle from one
`(x, y, angle)` triple.  The three iterators are modelled as streams
`ℕ → ℚ`; the `t`-th particle is built from the `t`-th element of each stream,
exactly as the zipped iterator does.
-/

/-- `NewPoseBelief::from_distributions`: each particle reuses the sampled
angle for `vel_angle` and the sampled `(x, y)` for `velocity`, as in the
source (`angle.clone().into()` / `x.clone().into()` used twice). -/
def NewPoseBelief.fromDistributions (n : ℕ) (angleS xS yS : ℕ → ℚ) : List NewPose :=
  (List.range n).map (fun t =>
    { angle := angleS t
      position := ⟨xS t, yS t⟩
      vel_angle := angleS t
      velocity := ⟨xS t, yS t⟩ })

/-- `DistanceFinderMCL::from_distributions` delegates its belief construction
to `NewPoseBelief::from_distributions` unchanged. -/
def dfFromDistributionsBelief (n : ℕ) (angleS xS yS : ℕ → ℚ) : List NewPose :=
  NewPoseBelief.fromDistributions n angleS xS yS

/-- `ObjectDetectorMCL::from_distributions` delegates its belief construction
to `NewPoseBelief::from_distributions` unchanged. -/
def odFromDistributionsBelief (n : ℕ) (angleS xS yS : ℕ → ℚ) : List NewPose :=
  NewPoseBelief.fromDistributions n angleS xS yS

/-!
### `get_prediction`

Both MCL filters accumulate `average_pose += *sample` starting from
`NewPose::default()` and divide by `belief.len()`.
-/

/-- `get_prediction` of both MCL filters: fold the belief with pose addition
starting from the default pose, then divide by the particle count. -/
def getPrediction (belief : List NewPose) : NewPose :=
  (belief.foldl NewPose.add NewPose.zero).divScalar belief.length

/-!
### Range-finder observation model (`DistanceFinderMCL::observation_update`)

A distance sensor is abstracted by its fixed reading for this update
(`sense()`), its optional maximum range (`range()`), and its pose relative to
the robot (`relative_pose()`).  The map raycast and the Euclidean distance
`Point::dist` (which takes a square root) are abstracted as parameters.
-/

/-- A distance sensor as seen by one `observation_update` call: its reading,
its optional maximum range and its relative pose. -/
structure DSensor where
  reading : Option ℚ
  range : Option ℚ
  relPose : NewPose
deriving DecidableEq, Repr

/-- `pred_dist <= sensor.range().unwrap_or(f64::MAX)`: with no configured
range every finite predicted distance passes the comparison. -/
def inSensorRange (r : Option ℚ) (predDist : ℚ) : Bool :=
  match r with
  | some bound => decide (predDist ≤ bound)
  | none => true

/-- The per-sensor error contribution of `DistanceFinderMCL::observation_update`,
translated with the source's nested match structure: an in-range prediction
against a real reading contributes the absolute difference, an out-of-range
prediction against a real reading contributes `0.`, a missing prediction
against a real reading contributes `6.`, a missing reading against any
returned prediction contributes `6.`, and `0.` otherwise. -/
def dfContribution (raycast : NewPose → Option Point) (dist : Point → Point → ℚ)
    (sample : NewPose) (s : DSensor) : ℚ :=
  match s.reading with
  | some realDist =>
    match raycast (NewPose.add sample s.relPose) with
    | some pred =>
      let predDist := dist pred sample.position
      if inSensorRange s.range predDist then |realDist - predDist| else 0
    | none => 6
  | none =>
    match raycast (NewPose.add sample s.relPose) with
    | some _ => 6
    | none => 0

/-- The error contribution table exactly as the claim states it: a reading
against an out-of-range or absent prediction is claimed to contribute the
constant penalty `6.0`, and a missing reading against an out-of-range
prediction is claimed to contribute `0.0`. -/
def claimTableContribution (raycast : NewPose → Option Point) (dist : Point → Point → ℚ)
    (sample : NewPose) (s : DSensor) : ℚ :=
  match s.reading with
  | some realDist =>
    match raycast (NewPose.add sample s.relPose) with
    | some pred =>
      let predDist := dist pred sample.position
      if inSensorRange s.range predDist then |realDist - predDist| else 6
    | none => 6
  | none =>
    match raycast (NewPose.add sample s.relPose) with
    | some pred =>
      let predDist := dist pred sample.position
      if inSensorRange s.range predDist then 6 else 0
    | none => 0

/-- The amended error contribution table (what the code computes): the only
changes forced by the counterexamples are the two out-of-range cells — a real
reading against an out-of-range prediction contributes `0.0`, and a missing
reading against a returned prediction contributes `6.0` whether or not that
prediction is within range. -/
def amendedTableContribution (raycast : NewPose → Option Point) (dist : Point → Point → ℚ)
    (sample : NewPose) (s : DSensor) : ℚ :=
  match s.reading, raycast (NewPose.add sample s.relPose) with
  | some realDist, some pred =>
    let predDist := dist pred sample.position
    if inSensorRange s.range predDist then |realDist - predDist| else 0
  | some _, none => 6
  | none, some _ => 6
  | none, none => 0

/-- The per-particle error of `DistanceFinderMCL::observation_update`: the sum
of the per-sensor contributions divided by the number of sensors. -/
def dfErrorOf (raycast : NewPose → Option Point) (dist : Point → Point → ℚ)
    (sensors : List DSensor) (sample : NewPose) : ℚ :=
  ((sensors.map (dfContribution raycast dist sample)).sum) / sensors.length

/-!
### Shared MCL resampling machinery

`WeightedIndex::new(weights).unwrap()` panics when `rand` rejects the weights
(empty list, a negative weight, or an all-zero total); a successful
construction always samples valid indices.  The sampling stream is modelled by
`pick : ℕ → ℕ` (the index drawn at each step) and the per-draw resampling
noise by `noise : ℕ → NewPose`.
-/

/-- Acceptance condition of `rand::distributions::WeightedIndex::new` over the
rationals: a non-empty list, no negative weight, and a non-zero total. -/
def weightedIndexValid (ws : List ℚ) : Bool :=
  !ws.isEmpty && ws.all (fun w => decide (0 ≤ w)) && decide (ws.sum ≠ 0)

/-- Errors of an MCL observation update.  The source never constructs a
recoverable error value: `invalidWeights` exists only to state the spec's
claimed behaviour, while `panicked` models the `unwrap` panic that the code
actually performs. -/
inductive MclErr where
  | invalidWeights
  | panicked
deriving DecidableEq, Repr

/-- The resampling loop body shared by both MCL filters.  `fuel` encodes the
remaining headroom `max_particle_count - new_particles.len()`, so the guard
`new_particles.len() < max_particle_count` is `fuel > 0`; the guard
`sum_weights < weight_sum_threshold` is tested each iteration.  Each drawn
particle is `belief[idx] + noise`.  Returns the produced particles together
with the final running sum of drawn weights. -/
def resampleGo (weights : List ℚ) (belief : List NewPose) (noise : ℕ → NewPose)
    (pick : ℕ → ℕ) (thr : ℚ) :
    ℕ → ℕ → ℚ → List NewPose → List NewPose × ℚ
  | 0, _, s, acc => (acc.reverse, s)
  | fuel + 1, t, s, acc =>
    if s < thr then
      resampleGo weights belief noise pick thr fuel (t + 1)
        (s + weights.getD (pick t) 0)
        ((NewPose.add (belief.getD (pick t) NewPose.zero) (noise t)) :: acc)
    else (acc.reverse, s)

/-- The resampling loop of both `observation_update`s, started with zero drawn
weight and no particles. -/
def resampleLoop (weights : List ℚ) (belief : List NewPose) (noise : ℕ → NewPose)
    (pick : ℕ → ℕ) (thr : ℚ) (maxc : ℕ) : List NewPose × ℚ :=
  resampleGo weights belief noise pick thr maxc 0 0 []

/-- `weight_sum_threshold = max_particle_count / 60`, set by both constructors
of both filters. -/
def mkWeightSumThreshold (maxc : ℕ) : ℚ := (maxc : ℚ) / 60

/-!
### Weight construction

`DistanceFinderMCL` falls back to uniform weights `2 * weight_sum_threshold /
belief.len()` when every error is exactly zero; `ObjectDetectorMCL` uses
`weight_sum_threshold / belief.len()` and its degeneracy test is
`error == &0. || error == &std::f64::NAN`.  Over the rationals the second
disjunct is modelled as the literal `false`, which is what IEEE-754 equality
makes of `error == NAN` for every input; the float-level comparison itself is
modelled faithfully in `F64V` / `odDegenerateCheck` below.
-/

/-- Weight vector of `DistanceFinderMCL::observation_update`. -/
def dfWeights (thr : ℚ) (len : ℕ) (wfe : ℚ → ℚ) (errors : List ℚ) : List ℚ :=
  if errors.all (fun e => decide (e = 0)) then
    errors.map (fun _ => 2 * thr / (len : ℚ))
  else
    errors.map wfe

/-- Weight vector of `ObjectDetectorMCL::observation_update`.  The source's
degeneracy test is `error == &0. || error == &std::f64::NAN`; the second
disjunct is false for every IEEE-754 input, hence the literal `false` here. -/
def odWeights (thr : ℚ) (len : ℕ) (wfe : ℚ → ℚ) (errors : List ℚ) : List ℚ :=
  if errors.all (fun e => decide (e = 0) || false) then
    errors.map (fun _ => thr / (len : ℚ))
  else
    errors.map wfe

/-- An `f64` as compared by the source's degeneracy test: either NaN or a
finite value modelled as a rational. -/
inductive F64V where
  | nan
  | fin (q : ℚ)
deriving DecidableEq, Repr

/-- IEEE-754 equality `==`: NaN compares unequal to everything, itself
included. -/
def ieeeEq (a b : F64V) : Bool :=
  match a, b with
  | F64V.fin x, F64V.fin y => decide (x = y)
  | _, _ => false

/-- The degeneracy test of `ObjectDetectorMCL::observation_update` exactly as
written in the source: `errors.iter().all(|error| error == &0. ||
error == &std::f64::NAN)` under IEEE-754 `==`. -/
def odDegenerateCheck (errors : List F64V) : Bool :=
  errors.all (fun e => ieeeEq e (F64V.fin 0) || ieeeEq e F64V.nan)

/-!
### Object-detector observation model (`ObjectDetectorMCL::observation_update`)

The magnitude `Point::mag` (a square root) and the map query
`Map2D::cull_points` are abstracted as parameters `m` and `cull`.  Rust's
stable `sort_by` is modelled by `List.mergeSort` on the key `m`.
-/

/-- `sort_by(|a, b| a.mag().partial_cmp(&b.mag()).unwrap())`: stable sort by
magnitude ascending. -/
def sortByMag (m : Point → ℚ) (l : List Point) : List Point :=
  l.mergeSort (fun a b => decide (m a ≤ m b))

/-- The predicted observation for one particle: cull the map's landmark
points at `particle + sensor.relative_pose` with the sensor field of view,
then sort by magnitude ascending. -/
def odPredObs (m : Point → ℚ) (cull : NewPose → ℚ → List Point)
    (sample relP : NewPose) (fov : ℚ) : List Point :=
  sortByMag m (cull (NewPose.add sample relP) fov)

/-- The per-particle error of `ObjectDetectorMCL::observation_update`: the
rank-paired magnitudes of differences over the zipped lists, plus `6.` times
the absolute difference of the list lengths.  `sortedObs` is the already
sorted real observation (sorted once, outside the particle loop, as in the
source). -/
def odErrorOf (m : Point → ℚ) (cull : NewPose → ℚ → List Point)
    (sortedObs : List Point) (relP : NewPose) (fov : ℚ) (sample : NewPose) : ℚ :=
  let pred := odPredObs m cull sample relP fov
  ((sortedObs.zip pred).map (fun pr => m (pr.1.sub pr.2))).sum
    + 6 * |((sortedObs.length : ℚ) - (pred.length : ℚ))|

/-!
### The two observation updates

Both end with `WeightedIndex::new(weights.clone()).unwrap()` followed by the
resampling loop; the `unwrap` aborts (models as `.error .panicked`) whenever
`rand` rejects the weights.
-/

/-- `DistanceFinderMCL::observation_update`: errors, weights, weighted-index
construction (post-`unwrap`), resampling; returns the new belief. -/
def dfObservationUpdate (raycast : NewPose → Option Point) (dist : Point → Point → ℚ)
    (sensors : List DSensor) (wfe : ℚ → ℚ) (thr : ℚ) (maxc : ℕ)
    (pick : ℕ → ℕ) (noise : ℕ → NewPose) (belief : List NewPose) :
    Except MclErr (List NewPose) :=
  let errors := belief.map (dfErrorOf raycast dist sensors)
  let weights := dfWeights thr belief.length wfe errors
  if weightedIndexValid weights then
    Except.ok (resampleLoop weights belief noise pick thr maxc).1
  else
    Except.error MclErr.panicked

/-- `ObjectDetectorMCL::observation_update`: sort the real observation once,
compute per-particle errors, weights, weighted-index construction
(post-`unwrap`), resampling; returns the new belief. -/
def odObservationUpdate (m : Point → ℚ) (cull : NewPose → ℚ → List Point)
    (obs : List Point) (relP : NewPose) (fov : ℚ) (wfe : ℚ → ℚ) (thr : ℚ)
    (maxc : ℕ) (pick : ℕ → ℕ) (noise : ℕ → NewPose) (belief : List NewPose) :
    Except MclErr (List NewPose) :=
  let sortedObs := sortByMag m obs
  let errors := belief.map (odErrorOf m cull sortedObs relP fov)
  let weights := odWeights thr belief.length wfe errors
  if weightedIndexValid weights then
    Except.ok (resampleLoop weights belief noise pick thr maxc).1
  else
    Except.error MclErr.panicked

/-!
### Unscented Kalman filter (`KalmanFilter`)

State dimension is fixed at `n = 6`; the sigma matrix has 13 rows.  Rows are
modelled as functions `Fin 6 → ℚ` and 6x6 matrices as `Fin 6 → Fin 6 → ℚ`.
The numeric routines `f64::sqrt`, `symmetric_eigen` and `try_inverse` of
`nalgebra` are abstracted as parameters.
-/

/-- A 6-component row vector (`RowVector6<f64>`). -/
def Row6 : Type := Fin 6 → ℚ

/-- A 6x6 matrix (`Matrix6<f64>`). -/
def Mat6 : Type := Fin 6 → Fin 6 → ℚ

/-- `lambda = alpha^2 * (6 + kappa) - 6`, recomputed at each use site in the
source. -/
def ukfLambda (alpha kappa : ℚ) : ℚ := alpha ^ 2 * (6 + kappa) - 6

/-- Failure modes of the UKF measurement step.  The source never constructs a
recoverable error value: `singularInnovation` exists only to state the spec's
claimed behaviour, while `panicked` models the `try_inverse().unwrap()` panic
the code actually performs. -/
inductive KfErr where
  | singularInnovation
  | panicked
deriving DecidableEq, Repr

/-- The 13x1 sensor sigma matrix: the scalar distance sensor evaluated at each
sigma row, with the row unpacked into a `NewPose` exactly as in the source
(`angle = e[0]`, `position = (e[1], e[2])`, `vel_angle = e[3]`,
`velocity = (e[4], e[5])`). -/
def sensorSigmaOf (sensorFn : NewPose → ℚ) (sigma : Fin 13 → Row6) : Fin 13 → ℚ :=
  fun i => sensorFn
    { angle := sigma i 0
      position := ⟨sigma i 1, sigma i 2⟩
      vel_angle := sigma i 3
      velocity := ⟨sigma i 4, sigma i 5⟩ }

/-- `sensor_predicted`: the recombined scalar measurement, accumulated with
the source's weights `row / (6 + lambda) * (if i != 0 then 1/2 else lambda)`. -/
def zHatOf (lam : ℚ) (ss : Fin 13 → ℚ) : ℚ :=
  ∑ i : Fin 13, ss i / (6 + lam) * (if i ≠ 0 then (1 : ℚ) / 2 else lam)

/-- `cov_zz` before the inversion: the weighted sum of squared centered sensor
sigma values plus the measurement noise `r`. -/
def covZZof (alpha beta lam r : ℚ) (ss : Fin 13 → ℚ) : ℚ :=
  (∑ i : Fin 13, (ss i - zHatOf lam ss) * (ss i - zHatOf lam ss) *
    (if i = 0 then lam / (6 + lam) + (1 - alpha ^ 2 + beta) else 1 / (2 * (6 + lam)))) + r

/-- `cov_xz`: the weighted sum of centered state rows times centered sensor
sigma values. -/
def covXZof (alpha beta lam : ℚ) (sigma : Fin 13 → Row6) (knownState : Row6)
    (ss : Fin 13 → ℚ) : Row6 :=
  fun j => ∑ i : Fin 13, (sigma i j - knownState j) * (ss i - zHatOf lam ss) *
    (if i = 0 then lam / (6 + lam) + (1 - alpha ^ 2 + beta) else 1 / (2 * (6 + lam)))

/-- `KalmanFilter::measurement_update`.  In exact arithmetic the 1x1
`try_inverse` of `cov_zz` fails precisely when `cov_zz = 0`; the source calls
`.unwrap()` on that result, so a singular innovation covariance aborts the
program (`.error .panicked`) instead of returning an error value.  On success
the new `known_state` and `covariance_matrix` are returned. -/
def measurementUpdate (sensorFn : NewPose → ℚ) (alpha beta kappa r : ℚ)
    (sigma : Fin 13 → Row6) (knownState : Row6) (cov : Mat6) (z : ℚ) :
    Except KfErr (Row6 × Mat6) :=
  let lam := ukfLambda alpha kappa
  let ss := sensorSigmaOf sensorFn sigma
  let czz := covZZof alpha beta lam r ss
  if czz = 0 then
    Except.error KfErr.panicked
  else
    let k := fun j => covXZof alpha beta lam sigma knownState ss j * czz⁻¹
    Except.ok
      (fun j => knownState j + k j * (z - zHatOf lam ss),
       fun a b => cov a b - k a * czz * k b)

/-!
### `KalmanFilter::prediction_update`, recombination part (lines 186-204)

The motion propagation of the sigma rows (control input, clamping) happens
before this fragment; `sigma` below is the already-propagated sigma matrix.
-/

/-- The recombined mean, accumulated exactly as the source writes it:
`known_state += sigma.row(i) / (6 + lambda) * if i != 0 { 1/2 } else { lambda }`. -/
def predMeanCode (lam : ℚ) (sigma : Fin 13 → Row6) : Row6 :=
  fun j => ∑ i : Fin 13, sigma i j / (6 + lam) * (if i ≠ 0 then (1 : ℚ) / 2 else lam)

/-- The recombined covariance with the process noise `q` added afterwards,
accumulated exactly as the source writes it. -/
def predCovCode (lam alpha beta : ℚ) (sigma : Fin 13 → Row6) (ks : Row6)
    (q : Mat6) : Mat6 :=
  fun a b => (∑ i : Fin 13, (sigma i a - ks a) * (sigma i b - ks b) *
    (if i = 0 then lam / (6 + lam) + (1 - alpha ^ 2 + beta) else 1 / (2 * (6 + lam)))) + q a b

/-- The recombination tail of `KalmanFilter::prediction_update`: new mean and
new covariance from the propagated sigma matrix. -/
def predictionRecombine (alpha beta kappa : ℚ) (sigma : Fin 13 → Row6)
    (q : Mat6) : Row6 × Mat6 :=
  let lam := ukfLambda alpha kappa
  let ks := predMeanCode lam sigma
  (ks, predCovCode lam alpha beta sigma ks q)

/-- The standard UKF mean weights as the spec states them:
`w_mean_0 = lambda / (n + lambda)`, `w_i = 1 / (2(n + lambda))`. -/
def specWMean (lam : ℚ) (i : Fin 13) : ℚ :=
  if i = 0 then lam / (6 + lam) else 1 / (2 * (6 + lam))

/-- The standard UKF covariance weights as the spec states them:
`w_cov_0 = lambda / (n + lambda) + (1 - alpha^2 + beta)`,
`w_i = 1 / (2(n + lambda))`. -/
def specWCov (lam alpha beta : ℚ) (i : Fin 13) : ℚ :=
  if i = 0 then lam / (6 + lam) + (1 - alpha ^ 2 + beta) else 1 / (2 * (6 + lam))

/-- The recombined mean written with the spec's weights:
`x-hat = sum of w_mean_i * row_i`. -/
def specPredMean (lam : ℚ) (sigma : Fin 13 → Row6) : Row6 :=
  fun j => ∑ i : Fin 13, specWMean lam i * sigma i j

/-!
### `KalmanFilter::gen_sigma_matrix`
-/

/-- `f64::round`: round half away from zero. -/
def roundAway (q : ℚ) : ℤ :=
  if q < 0 then -⌊-q + 1 / 2⌋ else ⌊q + 1 / 2⌋

/-- `(e * 100000.).round() / 100000.`: round an entry to 5 decimal places. -/
def roundTo5 (q : ℚ) : ℚ := (roundAway (q * 100000) : ℚ) / 100000

/-- Entrywise map over a 6x6 matrix (`Matrix::map`). -/
def mat6Map (f : ℚ → ℚ) (mtx : Mat6) : Mat6 := fun i j => f (mtx i j)

/-- Scalar multiple of a 6x6 matrix. -/
def mat6Smul (c : ℚ) (mtx : Mat6) : Mat6 := fun i j => c * mtx i j

/-- 6x6 matrix product. -/
def mat6Mul (a b : Mat6) : Mat6 := fun i j => ∑ k : Fin 6, a i k * b k j

/-- `Matrix6::from_diagonal`. -/
def mat6Diagonal (d : Fin 6 → ℚ) : Mat6 := fun i j => if i = j then d i else 0

/-- Pointwise row addition (`known_state + square_root_cov.row(i)`). -/
def rowAdd (a b : Row6) : Row6 := fun j => a j + b j

/-- Pointwise row subtraction (`known_state - square_root_cov.row(i)`). -/
def rowSub (a b : Row6) : Row6 := fun j => a j - b j

/-- `KalmanFilter::gen_sigma_matrix`, parametric in the abstracted numeric
routines: `symEig` models `nalgebra`'s `symmetric_eigen` (eigenvalues and
eigenvector matrix), `tryInv` models `try_inverse`, and `sqrtF` models
`f64::sqrt`.  The source rounds each covariance entry to 5 decimal places,
scales by `(6 + lambda)`, eigendecomposes, clamps each eigenvalue to `>= 0`
and takes its square root, reconstructs `S = V * diag(sqrt(clamped)) * V^-1`
(unwrapping the inverse), and pushes the 13 rows `x-hat`, `x-hat + S.row(i)`
for `i = 0..5`, `x-hat - S.row(i)` for `i = 0..5`.  The two `for` loops are
modelled by `List.ofFn`. -/
def genSigmaRows (symEig : Mat6 → (Fin 6 → ℚ) × Mat6) (tryInv : Mat6 → Option Mat6)
    (sqrtF : ℚ → ℚ) (alpha kappa : ℚ) (knownState : Row6) (cov : Mat6) :
    Option (List Row6) :=
  let lam := ukfLambda alpha kappa
  let ed := symEig (mat6Smul (6 + lam) (mat6Map roundTo5 cov))
  let d := fun i => sqrtF (max (ed.1 i) 0)
  match tryInv ed.2 with
  | none => none
  | some vinv =>
    let s := mat6Mul (mat6Mul ed.2 (mat6Diagonal d)) vinv
    some (knownState ::
      (List.ofFn (fun i : Fin 6 => rowAdd knownState (s i)) ++
       List.ofFn (fun i : Fin 6 => rowSub knownState (s i))))

/-- The square-root factor reconstructed by `gen_sigma_matrix` from the
abstracted eigendecomposition of the rounded, scaled covariance. -/
def genSigmaFactor (symEig : Mat6 → (Fin 6 → ℚ) × Mat6) (sqrtF : ℚ → ℚ)
    (alpha kappa : ℚ) (cov : Mat6) (vinv : Mat6) : Mat6 :=
  let ed := symEig (mat6Smul (6 + ukfLambda alpha kappa) (mat6Map roundTo5 cov))
  mat6Mul (mat6Mul ed.2 (mat6Diagonal (fun i => sqrtF (max (ed.1 i) 0)))) vinv

/-!
### Theorems about the particle belief: construction, prediction and
the range-finder error model
-/

/-- A fold of componentwise pose addition, projected through an additive
component function. -/
theorem foldl_add_component (f : NewPose → ℚ)
    (hf : ∀ p q : NewPose, f (NewPose.add p q) = f p + f q) :
    ∀ (l : List NewPose) (init : NewPose),
      f (l.foldl NewPose.add init) = f init + (l.map f).sum := by
  intro l
  induction l with
  | nil => intro init; simp
  | cons p t ih =>
    intro init
    simp only [List.foldl_cons, List.map_cons, List.sum_cons]
    rw [ih, hf]
    ring

/-- **C7**: for every non-empty belief of either MCL filter,
`get_prediction()` returns exactly the componentwise arithmetic mean of the
particles: each of the six components, the angle included, is summed over all
particles and divided by the particle count, with no angle wrap-around
handling. -/
theorem get_prediction_componentwise_mean (belief : List NewPose)
    (h : belief ≠ []) :
    getPrediction belief =
      { angle := (belief.map NewPose.angle).sum / belief.length
        position := ⟨(belief.map (fun p => p.position.x)).sum / belief.length,
                     (belief.map (fun p => p.position.y)).sum / belief.length⟩
        vel_angle := (belief.map NewPose.vel_angle).sum / belief.length
        velocity := ⟨(belief.map (fun p => p.velocity.x)).sum / belief.length,
                     (belief.map (fun p => p.velocity.y)).sum / belief.length⟩ } := by
  clear h
  unfold getPrediction NewPose.divScalar
  have hangle := foldl_add_component NewPose.angle (by intro p q; rfl) belief NewPose.zero
  have hpx := foldl_add_component (fun p => p.position.x) (by intro p q; rfl) belief NewPose.zero
  have hpy := foldl_add_component (fun p => p.position.y) (by intro p q; rfl) belief NewPose.zero
  have hva := foldl_add_component NewPose.vel_angle (by intro p q; rfl) belief NewPose.zero
  have hvx := foldl_add_component (fun p => p.velocity.x) (by intro p q; rfl) belief NewPose.zero
  have hvy := foldl_add_component (fun p => p.velocity.y) (by intro p q; rfl) belief NewPose.zero
  simp only [NewPose.mk.injEq, Point.mk.injEq]
  refine ⟨?_, ⟨?_, ?_⟩, ?_, ?_, ?_⟩
  · rw [hangle]; simp [NewPose.zero, Point.zero]
  · rw [hpx]; simp [NewPose.zero, Point.zero]
  · rw [hpy]; simp [NewPose.zero, Point.zero]
  · rw [hva]; simp [NewPose.zero, Point.zero]
  · rw [hvx]; simp [NewPose.zero, Point.zero]
  · rw [hvy]; simp [NewPose.zero, Point.zero]

/-- Witness for C7 at a concrete two-particle belief. -/
theorem get_prediction_componentwise_mean_witness :
    getPrediction [⟨1, ⟨2, 3⟩, 4, ⟨5, 6⟩⟩, ⟨3, ⟨4, 5⟩, 6, ⟨7, 8⟩⟩] =
      { angle := ((1 : ℚ) + 3) / 2
        position := ⟨((2 : ℚ) + 4) / 2, ((3 : ℚ) + 5) / 2⟩
        vel_angle := ((4 : ℚ) + 6) / 2
        velocity := ⟨((5 : ℚ) + 7) / 2, ((6 : ℚ) + 8) / 2⟩ } := by
  rw [get_prediction_componentwise_mean
    [⟨1, ⟨2, 3⟩, 4, ⟨5, 6⟩⟩, ⟨3, ⟨4, 5⟩, 6, ⟨7, 8⟩⟩] (by simp)]
  norm_num

/-- **C10**: every particle produced by `from_distributions` (of either MCL
filter, both of which delegate to `NewPoseBelief::from_distributions`) has
`vel_angle` equal to its sampled heading angle and `velocity` equal to its
sampled `(x, y)` position: the same sampled values are reused, so the
velocity components are neither zero nor drawn from separate distributions. -/
theorem from_distributions_reuses_samples (n : ℕ) (angleS xS yS : ℕ → ℚ)
    (i : ℕ) (h : i < n) :
    ((dfFromDistributionsBelief n angleS xS yS).getD i NewPose.zero).vel_angle = angleS i ∧
    ((dfFromDistributionsBelief n angleS xS yS).getD i NewPose.zero).velocity = ⟨xS i, yS i⟩ ∧
    ((dfFromDistributionsBelief n angleS xS yS).getD i NewPose.zero).vel_angle =
      ((dfFromDistributionsBelief n angleS xS yS).getD i NewPose.zero).angle ∧
    ((dfFromDistributionsBelief n angleS xS yS).getD i NewPose.zero).velocity =
      ((dfFromDistributionsBelief n angleS xS yS).getD i NewPose.zero).position ∧
    odFromDistributionsBelief n angleS xS yS = dfFromDistributionsBelief n angleS xS yS := by
  unfold odFromDistributionsBelief dfFromDistributionsBelief NewPoseBelief.fromDistributions
  simp [List.getD_eq_getElem?_getD, List.getElem?_map, List.getElem?_range, h]

/-- Witness for C10 at concrete streams and index. -/
theorem from_distributions_reuses_samples_witness :
    ((dfFromDistributionsBelief 2 (fun t => t + 10) (fun t => t + 20) (fun t => t + 30)).getD
        1 NewPose.zero).vel_angle = ((1 : ℚ) + 10) ∧
    ((dfFromDistributionsBelief 2 (fun t => t + 10) (fun t => t + 20) (fun t => t + 30)).getD
        1 NewPose.zero).velocity = ⟨(1 : ℚ) + 20, (1 : ℚ) + 30⟩ := by
  have h := from_distributions_reuses_samples 2
    (fun t => (t : ℚ) + 10) (fun t => (t : ℚ) + 20) (fun t => (t : ℚ) + 30) 1 (by norm_num)
  exact ⟨h.1, h.2.1⟩

/-- **C1 counterexample**: with a sensor reading `Some 3`, a maximum range of
`1`, and a raycast prediction at distance `2` (out of range), the code's
contribution is `0.0` while the claim's table demands the penalty `6.0`. -/
theorem df_contribution_ne_claim_table :
    dfContribution (fun _ => some ⟨2, 0⟩) (fun p _ => p.x) NewPose.zero
        ⟨some 3, some 1, NewPose.zero⟩ = 0 ∧
    claimTableContribution (fun _ => some ⟨2, 0⟩) (fun p _ => p.x) NewPose.zero
        ⟨some 3, some 1, NewPose.zero⟩ = 6 := by
  constructor <;> norm_num [dfContribution, claimTableContribution, inSensorRange]

/-- **C1 (amended)**: for every particle and every non-empty slice of distance
sensors, each sensor's error contribution follows the amended case table
(`Some d` with an in-range prediction gives the absolute difference; `Some d`
with an out-of-range prediction gives `0.0`; `Some d` with no prediction gives
`6.0`; `None` with any returned prediction gives `6.0`; `None` with no
prediction gives `0.0`), and the per-particle error is the mean of these
contributions over the sensors. -/
theorem df_error_amended_table (raycast : NewPose → Option Point)
    (dist : Point → Point → ℚ) (sensors : List DSensor) (sample : NewPose)
    (h : sensors ≠ []) :
    dfErrorOf raycast dist sensors sample =
      ((sensors.map (amendedTableContribution raycast dist sample)).sum) /
        sensors.length := by
  clear h
  unfold dfErrorOf
  have hc : ∀ s : DSensor,
      dfContribution raycast dist sample s =
        amendedTableContribution raycast dist sample s := by
    intro s
    unfold dfContribution amendedTableContribution
    rcases s.reading with _ | d <;> rcases raycast (NewPose.add sample s.relPose) with _ | p <;> rfl
  rw [funext hc]

/-- Witness for the amended C1 at a one-sensor slice with an in-range
prediction. -/
theorem df_error_amended_table_witness :
    dfErrorOf (fun _ => some ⟨2, 0⟩) (fun p _ => p.x) [⟨some 3, some 9, NewPose.zero⟩]
        NewPose.zero =
      (([⟨some 3, some 9, NewPose.zero⟩] :
          List DSensor).map (amendedTableContribution (fun _ => some ⟨2, 0⟩)
            (fun p _ => p.x) NewPose.zero)).sum / 1 := by
  have h := df_error_amended_table (fun _ => some ⟨2, 0⟩) (fun p _ => p.x)
    [⟨some 3, some 9, NewPose.zero⟩] NewPose.zero (by simp)
  simpa using h

/-!
### Theorems about the resampling loop and the observation updates
-/

/-- The loop never produces more than `fuel` additional particles. -/
theorem resampleGo_length_le (weights : List ℚ) (belief : List NewPose)
    (noise : ℕ → NewPose) (pick : ℕ → ℕ) (thr : ℚ) :
    ∀ (fuel t : ℕ) (s : ℚ) (acc : List NewPose),
      (resampleGo weights belief noise pick thr fuel t s acc).1.length ≤
        fuel + acc.length := by
  intro fuel
  induction fuel with
  | zero => intro t s acc; simp [resampleGo]
  | succ fuel ih =>
    intro t s acc
    by_cases hs : s < thr
    · simp only [resampleGo, if_pos hs]
      have h := ih (t + 1) (s + weights.getD (pick t) 0)
        ((NewPose.add (belief.getD (pick t) NewPose.zero) (noise t)) :: acc)
      simp only [List.length_cons] at h
      omega
    · simp only [resampleGo, if_neg hs, List.length_reverse]
      omega

/-- The loop never discards accumulated particles. -/
theorem resampleGo_length_ge (weights : List ℚ) (belief : List NewPose)
    (noise : ℕ → NewPose) (pick : ℕ → ℕ) (thr : ℚ) :
    ∀ (fuel t : ℕ) (s : ℚ) (acc : List NewPose),
      acc.length ≤ (resampleGo weights belief noise pick thr fuel t s acc).1.length := by
  intro fuel
  induction fuel with
  | zero => intro t s acc; simp [resampleGo]
  | succ fuel ih =>
    intro t s acc
    by_cases hs : s < thr
    · simp only [resampleGo, if_pos hs]
      have h := ih (t + 1) (s + weights.getD (pick t) 0)
        ((NewPose.add (belief.getD (pick t) NewPose.zero) (noise t)) :: acc)
      simp only [List.length_cons] at h
      omega
    · simp only [resampleGo, if_neg hs, List.length_reverse]
      exact le_rfl

/-- On exit either the running sum of drawn weights has reached the threshold
or the particle headroom is exhausted. -/
theorem resampleGo_exit (weights : List ℚ) (belief : List NewPose)
    (noise : ℕ → NewPose) (pick : ℕ → ℕ) (thr : ℚ) :
    ∀ (fuel t : ℕ) (s : ℚ) (acc : List NewPose),
      thr ≤ (resampleGo weights belief noise pick thr fuel t s acc).2 ∨
        (resampleGo weights belief noise pick thr fuel t s acc).1.length =
          fuel + acc.length := by
  intro fuel
  induction fuel with
  | zero => intro t s acc; right; simp [resampleGo]
  | succ fuel ih =>
    intro t s acc
    by_cases hs : s < thr
    · simp only [resampleGo, if_pos hs]
      rcases ih (t + 1) (s + weights.getD (pick t) 0)
        ((NewPose.add (belief.getD (pick t) NewPose.zero) (noise t)) :: acc) with h | h
      · exact Or.inl h
      · right
        simp only [List.length_cons] at h
        omega
    · simp only [resampleGo, if_neg hs, List.length_reverse]
      left
      exact le_of_not_lt hs

/-- With a positive threshold and at least one particle of headroom, the loop
produces between 1 and `maxc` particles. -/
theorem resampleLoop_bounds (weights : List ℚ) (belief : List NewPose)
    (noise : ℕ → NewPose) (pick : ℕ → ℕ) (thr : ℚ) (maxc : ℕ)
    (hthr : 0 < thr) (hmax : 1 ≤ maxc) :
    1 ≤ (resampleLoop weights belief noise pick thr maxc).1.length ∧
      (resampleLoop weights belief noise pick thr maxc).1.length ≤ maxc := by
  constructor
  · obtain ⟨k, rfl⟩ : ∃ k, maxc = k + 1 := ⟨maxc - 1, by omega⟩
    unfold resampleLoop
    simp only [resampleGo, if_pos hthr]
    have h := resampleGo_length_ge weights belief noise pick thr k 1
      (0 + weights.getD (pick 0) 0)
      [NewPose.add (belief.getD (pick 0) NewPose.zero) (noise 0)]
    simpa using h
  · have h := resampleGo_length_le weights belief noise pick thr maxc 0 0 []
    simpa [resampleLoop] using h

/-- **C2**: for every `observation_update` on either MCL filter constructed
with `max_particle_count >= 1` (so `weight_sum_threshold = max_particle_count
/ 60 > 0`): the resampling loop draws indices until either the running sum of
the drawn weights reaches the threshold or `max_particle_count` particles have
been produced, and every update that returns a new belief satisfies
`1 <= belief.len() <= max_particle_count`. -/
theorem observation_update_belief_bounds (maxc : ℕ) (hmax : 1 ≤ maxc)
    (raycast : NewPose → Option Point) (dist : Point → Point → ℚ)
    (sensors : List DSensor) (wfe : ℚ → ℚ) (pick : ℕ → ℕ) (noise : ℕ → NewPose)
    (belief : List NewPose) (m : Point → ℚ) (cull : NewPose → ℚ → List Point)
    (obs : List Point) (relP : NewPose) (fov : ℚ) :
    (∀ nb, dfObservationUpdate raycast dist sensors wfe (mkWeightSumThreshold maxc)
        maxc pick noise belief = Except.ok nb → 1 ≤ nb.length ∧ nb.length ≤ maxc) ∧
    (∀ nb, odObservationUpdate m cull obs relP fov wfe (mkWeightSumThreshold maxc)
        maxc pick noise belief = Except.ok nb → 1 ≤ nb.length ∧ nb.length ≤ maxc) ∧
    (∀ (ws : List ℚ) (b : List NewPose),
      mkWeightSumThreshold maxc ≤
          (resampleLoop ws b noise pick (mkWeightSumThreshold maxc) maxc).2 ∨
        (resampleLoop ws b noise pick (mkWeightSumThreshold maxc) maxc).1.length = maxc) := by
  have hthr : 0 < mkWeightSumThreshold maxc := by
    unfold mkWeightSumThreshold
    have : (0 : ℚ) < (maxc : ℚ) := by exact_mod_cast Nat.lt_of_lt_of_le Nat.zero_lt_one hmax
    positivity
  refine ⟨?_, ?_, ?_⟩
  · intro nb h
    simp only [dfObservationUpdate] at h
    split at h
    · cases h
      exact resampleLoop_bounds _ _ _ _ _ _ hthr hmax
    · exact absurd h (by simp)
  · intro nb h
    simp only [odObservationUpdate] at h
    split at h
    · cases h
      exact resampleLoop_bounds _ _ _ _ _ _ hthr hmax
    · exact absurd h (by simp)
  · intro ws b
    have h := resampleGo_exit ws b noise pick (mkWeightSumThreshold maxc) maxc 0 0 []
    simpa [resampleLoop] using h

/-- Witness for C2: a one-particle, zero-sensor update at capacity 1 returns a
single-particle belief. -/
theorem observation_update_belief_bounds_witness :
    dfObservationUpdate (fun _ => none) (fun _ _ => 0) [] (fun _ => 0)
        (mkWeightSumThreshold 1) 1 (fun _ => 0) (fun _ => NewPose.zero)
        [NewPose.zero] = Except.ok [NewPose.add NewPose.zero NewPose.zero] ∧
    1 ≤ ([NewPose.add NewPose.zero NewPose.zero] : List NewPose).length ∧
    ([NewPose.add NewPose.zero NewPose.zero] : List NewPose).length ≤ 1 := by
  have hok : dfObservationUpdate (fun _ => none) (fun _ _ => 0) [] (fun _ => 0)
      (mkWeightSumThreshold 1) 1 (fun _ => 0) (fun _ => NewPose.zero)
      [NewPose.zero] = Except.ok [NewPose.add NewPose.zero NewPose.zero] := by
    norm_num [dfObservationUpdate, dfErrorOf, dfWeights, weightedIndexValid,
      resampleLoop, resampleGo, mkWeightSumThreshold]
  refine ⟨hok, ?_⟩
  exact (observation_update_belief_bounds 1 (by norm_num) (fun _ => none)
    (fun _ _ => 0) [] (fun _ => 0) (fun _ => 0) (fun _ => NewPose.zero)
    [NewPose.zero] (fun _ => 0) (fun _ _ => []) [] NewPose.zero 0).1
    [NewPose.add NewPose.zero NewPose.zero] hok

/-- **C4 counterexample**: with a caller-supplied weight function returning a
negative weight, the weighted-distribution construction rejects its inputs,
and `observation_update` aborts with the modelled `unwrap` panic rather than
returning an `InvalidWeights` error value to the caller. -/
theorem observation_update_invalid_weights_cex :
    dfObservationUpdate (fun _ => none) (fun _ _ => 0)
        [⟨some 1, none, NewPose.zero⟩] (fun _ => -1) 1 1 (fun _ => 0)
        (fun _ => NewPose.zero) [NewPose.zero] = Except.error MclErr.panicked ∧
    (Except.error MclErr.panicked : Except MclErr (List NewPose)) ≠
      Except.error MclErr.invalidWeights := by
  constructor
  · norm_num [dfObservationUpdate, dfErrorOf, dfContribution, dfWeights,
      weightedIndexValid]
  · simp

/-- **C4 (amended)**: whenever the weighted-distribution construction rejects
the computed weights (empty, a negative entry, or zero total),
`observation_update` of either MCL filter panics via `unwrap` — modelled as
the `panicked` outcome, which carries no error value and no new belief; the
belief field is not reassigned before the panic. -/
theorem observation_update_invalid_weights_panics
    (raycast : NewPose → Option Point) (dist : Point → Point → ℚ)
    (sensors : List DSensor) (wfe : ℚ → ℚ) (thr : ℚ) (maxc : ℕ)
    (pick : ℕ → ℕ) (noise : ℕ → NewPose) (belief : List NewPose)
    (m : Point → ℚ) (cull : NewPose → ℚ → List Point) (obs : List Point)
    (relP : NewPose) (fov : ℚ) :
    (weightedIndexValid (dfWeights thr belief.length wfe
        (belief.map (dfErrorOf raycast dist sensors))) = false →
      dfObservationUpdate raycast dist sensors wfe thr maxc pick noise belief =
        Except.error MclErr.panicked) ∧
    (weightedIndexValid (odWeights thr belief.length wfe
        (belief.map (odErrorOf m cull (sortByMag m obs) relP fov))) = false →
      odObservationUpdate m cull obs relP fov wfe thr maxc pick noise belief =
        Except.error MclErr.panicked) := by
  constructor
  · intro h
    simp only [dfObservationUpdate, h]
    simp
  · intro h
    simp only [odObservationUpdate, h]
    simp

/-- Witness for the amended C4: concrete updates of both filters whose weight
vectors are rejected, both ending in the modelled panic. -/
theorem observation_update_invalid_weights_panics_witness :
    dfObservationUpdate (fun _ => none) (fun _ _ => 0)
        [⟨some 1, none, NewPose.zero⟩] (fun _ => -2) 1 1 (fun _ => 0)
        (fun _ => NewPose.zero) [NewPose.zero] = Except.error MclErr.panicked ∧
    odObservationUpdate (fun p => p.x) (fun _ _ => [⟨1, 0⟩]) [] NewPose.zero 0
        (fun _ => -2) 1 1 (fun _ => 0) (fun _ => NewPose.zero) [NewPose.zero] =
      Except.error MclErr.panicked := by
  constructor
  · exact (observation_update_invalid_weights_panics (fun _ => none) (fun _ _ => 0)
      [⟨some 1, none, NewPose.zero⟩] (fun _ => -2) 1 1 (fun _ => 0)
      (fun _ => NewPose.zero) [NewPose.zero] (fun p => p.x) (fun _ _ => [⟨1, 0⟩])
      [] NewPose.zero 0).1 (by
        norm_num [weightedIndexValid, dfWeights, dfErrorOf, dfContribution])
  · exact (observation_update_invalid_weights_panics (fun _ => none) (fun _ _ => 0)
      [⟨some 1, none, NewPose.zero⟩] (fun _ => -2) 1 1 (fun _ => 0)
      (fun _ => NewPose.zero) [NewPose.zero] (fun p => p.x) (fun _ _ => [⟨1, 0⟩])
      [] NewPose.zero 0).2 (by
        norm_num [weightedIndexValid, odWeights, odErrorOf, odPredObs, sortByMag,
          List.mergeSort_nil, List.mergeSort_singleton])

/-- **C5** (code-bug exhibit): the object-detector degeneracy test
`error == &0. || error == &std::f64::NAN` can never match a NaN error, because
IEEE-754 `==` is false on NaN even against NaN itself; so an all-NaN error
vector does not trigger the uniform-weight fallback, contradicting the claim.
The all-zero fallback itself does hold, with `2 * weight_sum_threshold / len`
in the range-finder filter and `weight_sum_threshold / len` in the
object-detector filter. -/
theorem od_nan_check_never_matches :
    odDegenerateCheck [F64V.nan] = false ∧
    odDegenerateCheck [F64V.fin 0] = true ∧
    dfWeights 1 2 (fun _ => 37) [0, 0] = [1, 1] ∧
    odWeights 1 2 (fun _ => 37) [0, 0] = [1 / 2, 1 / 2] := by
  refine ⟨rfl, by norm_num [odDegenerateCheck, ieeeEq], ?_, ?_⟩
  · norm_num [dfWeights]
  · norm_num [odWeights]

/-!
### Theorems about the object-detector error model
-/

/-- The stable sort by magnitude produces a list sorted by magnitude
ascending. -/
theorem sortByMag_sorted (m : Point → ℚ) (l : List Point) :
    List.Sorted (fun a b => m a ≤ m b) (sortByMag m l) := by
  have h := @List.sorted_mergeSort Point (fun a b => decide (m a ≤ m b))
    (fun a b c hab hbc => by
      simp only [decide_eq_true_eq] at *
      exact le_trans hab hbc)
    (fun a b => by
      simp only [Bool.or_eq_true, decide_eq_true_eq]
      exact le_total (m a) (m b)) l
  refine List.Pairwise.imp ?_ h
  intro a b hab
  simpa using hab

/-- A sum over a zipped pair of lists equals the rank-indexed sum over the
first `min` of the two lengths. -/
theorem zip_map_sum (m : Point → ℚ) :
    ∀ (a b : List Point),
      ((a.zip b).map (fun pr => m (pr.1.sub pr.2))).sum =
        ∑ k ∈ Finset.range (min a.length b.length),
          m ((a.getD k Point.zero).sub (b.getD k Point.zero)) := by
  intro a
  induction a with
  | nil => intro b; simp
  | cons x xs ih =>
    intro b
    cases b with
    | nil => simp
    | cons y ys =>
      simp only [List.zip_cons_cons, List.map_cons, List.sum_cons,
        List.length_cons]
      rw [ih ys]
      have hmin : min (xs.length + 1) (ys.length + 1) = min xs.length ys.length + 1 := by
        omega
      rw [hmin, Finset.sum_range_succ']
      simp [add_comm]

/-- **C6**: in `ObjectDetectorMCL::observation_update`, for every particle the
real observation list and the predicted observation list (from `cull_points`
at `particle + sensor.relative_pose`, the latter sorted per particle) are both
sorted by magnitude ascending, and the per-particle error equals the sum over
the first `min(|real|, |pred|)` rank-paired entries of the magnitude of
`real[k] - pred[k]`, plus `6` times the absolute difference of the two list
lengths. -/
theorem od_error_rank_pairing (m : Point → ℚ) (cull : NewPose → ℚ → List Point)
    (obs : List Point) (relP : NewPose) (fov : ℚ) (sample : NewPose) :
    List.Sorted (fun a b => m a ≤ m b) (sortByMag m obs) ∧
    List.Sorted (fun a b => m a ≤ m b) (odPredObs m cull sample relP fov) ∧
    odErrorOf m cull (sortByMag m obs) relP fov sample =
      (∑ k ∈ Finset.range
          (min (sortByMag m obs).length (odPredObs m cull sample relP fov).length),
        m (((sortByMag m obs).getD k Point.zero).sub
            ((odPredObs m cull sample relP fov).getD k Point.zero))) +
      6 * |((sortByMag m obs).length : ℚ) -
            ((odPredObs m cull sample relP fov).length : ℚ)| := by
  refine ⟨sortByMag_sorted m obs, sortByMag_sorted m _, ?_⟩
  simp only [odErrorOf]
  rw [zip_map_sum]

/-!
### Theorems about the UKF measurement step
-/

/-- **C3 counterexample**: with a constant distance sensor and `r = 0` the
innovation covariance `P_zz` is exactly zero (singular), and the measurement
step aborts with the modelled `unwrap` panic — it does not return a
`SingularInnovation` error value to the caller. -/
theorem measurement_update_singular_cex :
    covZZof 1 0 (ukfLambda 1 0) 0 (sensorSigmaOf (fun _ => 5) (fun _ _ => 0)) = 0 ∧
    measurementUpdate (fun _ => 5) 1 0 0 0 (fun _ _ => 0) (fun _ => 0)
        (fun _ _ => 0) 0 = Except.error KfErr.panicked ∧
    (Except.error KfErr.panicked : Except KfErr (Row6 × Mat6)) ≠
      Except.error KfErr.singularInnovation := by
  have hz : covZZof 1 0 (ukfLambda 1 0) 0
      (sensorSigmaOf (fun _ => 5) (fun _ _ => 0)) = 0 := by
    norm_num [covZZof, zHatOf, sensorSigmaOf, ukfLambda, Fin.sum_univ_succ,
      Fin.succ_ne_zero]
  refine ⟨hz, ?_, by simp⟩
  simp only [measurementUpdate]
  rw [if_pos hz]

/-- **C3 (amended)**: whenever the innovation covariance `P_zz` computed in
`KalmanFilter::measurement_update` is zero (the exact-arithmetic singular
case of the 1x1 `try_inverse`), the measurement step panics via `unwrap` —
modelled as the `panicked` outcome, which carries no error value and no
updated state; `known_state` and `covariance_matrix` are not reassigned
before the panic. -/
theorem measurement_update_singular_panics (sensorFn : NewPose → ℚ)
    (alpha beta kappa r : ℚ) (sigma : Fin 13 → Row6) (knownState : Row6)
    (cov : Mat6) (z : ℚ)
    (h : covZZof alpha beta (ukfLambda alpha kappa) r
        (sensorSigmaOf sensorFn sigma) = 0) :
    measurementUpdate sensorFn alpha beta kappa r sigma knownState cov z =
      Except.error KfErr.panicked := by
  simp only [measurementUpdate]
  rw [if_pos h]

/-- Witness for the amended C3 at a concrete singular configuration. -/
theorem measurement_update_singular_panics_witness :
    measurementUpdate (fun _ => 7) 1 0 0 0 (fun _ _ => 0) (fun _ => 1)
        (fun _ _ => 1) 3 = Except.error KfErr.panicked := by
  exact measurement_update_singular_panics (fun _ => 7) 1 0 0 0 (fun _ _ => 0)
    (fun _ => 1) (fun _ _ => 1) 3 (by
      norm_num [covZZof, zHatOf, sensorSigmaOf, ukfLambda, Fin.sum_univ_succ,
        Fin.succ_ne_zero])

/-!
### Theorems about the UKF prediction recombination
-/

/-- **C9**: in `KalmanFilter::prediction_update`, the recombined mean uses
weight `lambda / (n + lambda)` for the first sigma row and
`1 / (2(n + lambda))` for each of the remaining `2n` rows, and the recombined
covariance uses weight `lambda / (n + lambda) + (1 - alpha^2 + beta)` for the
first centered row and `1 / (2(n + lambda))` for the others, with the process
noise `Q` added afterwards. -/
theorem prediction_recombination_weights (alpha beta kappa : ℚ)
    (sigma : Fin 13 → Row6) (q : Mat6) :
    (predictionRecombine alpha beta kappa sigma q).1 =
      specPredMean (ukfLambda alpha kappa) sigma ∧
    (predictionRecombine alpha beta kappa sigma q).2 = fun a b =>
      (∑ i : Fin 13, specWCov (ukfLambda alpha kappa) alpha beta i *
        ((sigma i a - specPredMean (ukfLambda alpha kappa) sigma a) *
         (sigma i b - specPredMean (ukfLambda alpha kappa) sigma b))) + q a b := by
  have hmean : predMeanCode (ukfLambda alpha kappa) sigma =
      specPredMean (ukfLambda alpha kappa) sigma := by
    funext j
    unfold predMeanCode specPredMean specWMean
    apply Finset.sum_congr rfl
    intro i _
    by_cases hi : i = 0
    · subst hi
      rw [if_neg (by simp), if_pos rfl]
      rw [div_eq_mul_inv, div_eq_mul_inv]
      ring
    · rw [if_pos hi, if_neg hi]
      simp only [div_eq_mul_inv, mul_inv_rev, one_mul]
      ring
  constructor
  · simpa [predictionRecombine] using hmean
  · simp only [predictionRecombine]
    rw [hmean]
    funext a b
    unfold predCovCode specWCov
    apply congrArg (fun t => t + q a b)
    apply Finset.sum_congr rfl
    intro i _
    ring

/-!
### Theorems about `gen_sigma_matrix`
-/

/-- **C8**: `KalmanFilter::gen_sigma_matrix` rounds each covariance entry to 5
decimal places, scales the result by `(n + lambda)` with
`lambda = alpha^2 * (n + kappa) - n` and `n = 6`, feeds that matrix to the
(abstracted) symmetric eigendecomposition, clamps each eigenvalue to `>= 0`,
takes its (abstracted) square root, reconstructs
`S = V * diag(sqrt(clamped)) * V^-1` with the (abstracted, unwrapped) inverse
of `V`, and sets the sigma matrix to the 13 rows `x-hat`, then
`x-hat + S.row(i)` for `i = 0..5`, then `x-hat - S.row(i)` for `i = 0..5`. -/
theorem gen_sigma_matrix_rows (symEig : Mat6 → (Fin 6 → ℚ) × Mat6)
    (tryInv : Mat6 → Option Mat6) (sqrtF : ℚ → ℚ) (alpha kappa : ℚ)
    (knownState : Row6) (cov : Mat6) (vinv : Mat6)
    (h : tryInv (symEig (mat6Smul (6 + ukfLambda alpha kappa)
        (mat6Map roundTo5 cov))).2 = some vinv) :
    genSigmaRows symEig tryInv sqrtF alpha kappa knownState cov =
      some [knownState,
        rowAdd knownState (genSigmaFactor symEig sqrtF alpha kappa cov vinv 0),
        rowAdd knownState (genSigmaFactor symEig sqrtF alpha kappa cov vinv 1),
        rowAdd knownState (genSigmaFactor symEig sqrtF alpha kappa cov vinv 2),
        rowAdd knownState (genSigmaFactor symEig sqrtF alpha kappa cov vinv 3),
        rowAdd knownState (genSigmaFactor symEig sqrtF alpha kappa cov vinv 4),
        rowAdd knownState (genSigmaFactor symEig sqrtF alpha kappa cov vinv 5),
        rowSub knownState (genSigmaFactor symEig sqrtF alpha kappa cov vinv 0),
        rowSub knownState (genSigmaFactor symEig sqrtF alpha kappa cov vinv 1),
        rowSub knownState (genSigmaFactor symEig sqrtF alpha kappa cov vinv 2),
        rowSub knownState (genSigmaFactor symEig sqrtF alpha kappa cov vinv 3),
        rowSub knownState (genSigmaFactor symEig sqrtF alpha kappa cov vinv 4),
        rowSub knownState (genSigmaFactor symEig sqrtF alpha kappa cov vinv 5)] := by
  simp only [genSigmaRows, genSigmaFactor]
  rw [h]
  simp [List.ofFn_succ]
  exact ⟨rfl, rfl, rfl, rfl, rfl, rfl⟩

/-- Witness for C8 at a concrete all-zero configuration with identity-free
abstract numeric routines. -/
theorem gen_sigma_matrix_rows_witness :
    genSigmaRows (fun _ => (fun _ => 0, fun _ _ => 0)) (fun _ => some (fun _ _ => 0))
        (fun e => e) 1 0 (fun _ => 0) (fun _ _ => 0) =
      some [(fun _ => 0 : Row6),
        rowAdd (fun _ => 0) (genSigmaFactor (fun _ => (fun _ => 0, fun _ _ => 0))
          (fun e => e) 1 0 (fun _ _ => 0) (fun _ _ => 0) 0),
        rowAdd (fun _ => 0) (genSigmaFactor (fun _ => (fun _ => 0, fun _ _ => 0))
          (fun e => e) 1 0 (fun _ _ => 0) (fun _ _ => 0) 1),
        rowAdd (fun _ => 0) (genSigmaFactor (fun _ => (fun _ => 0, fun _ _ => 0))
          (fun e => e) 1 0 (fun _ _ => 0) (fun _ _ => 0) 2),
        rowAdd (fun _ => 0) (genSigmaFactor (fun _ => (fun _ => 0, fun _ _ => 0))
          (fun e => e) 1 0 (fun _ _ => 0) (fun _ _ => 0) 3),
        rowAdd (fun _ => 0) (genSigmaFactor (fun _ => (fun _ => 0, fun _ _ => 0))
          (fun e => e) 1 0 (fun _ _ => 0) (fun _ _ => 0) 4),
        rowAdd (fun _ => 0) (genSigmaFactor (fun _ => (fun _ => 0, fun _ _ => 0))
          (fun e => e) 1 0 (fun _ _ => 0) (fun _ _ => 0) 5),
        rowSub (fun _ => 0) (genSigmaFactor (fun _ => (fun _ => 0, fun _ _ => 0))
          (fun e => e) 1 0 (fun _ _ => 0) (fun _ _ => 0) 0),
        rowSub (fun _ => 0) (genSigmaFactor (fun _ => (fun _ => 0, fun _ _ => 0))
          (fun e => e) 1 0 (fun _ _ => 0) (fun _ _ => 0) 1),
        rowSub (fun _ => 0) (genSigmaFactor (fun _ => (fun _ => 0, fun _ _ => 0))
          (fun e => e) 1 0 (fun _ _ => 0) (fun _ _ => 0) 2),
        rowSub (fun _ => 0) (genSigmaFactor (fun _ => (fun _ => 0, fun _ _ => 0))
          (fun e => e) 1 0 (fun _ _ => 0) (fun _ _ => 0) 3),
        rowSub (fun _ => 0) (genSigmaFactor (fun _ => (fun _ => 0, fun _ _ => 0))
          (fun e => e) 1 0 (fun _ _ => 0) (fun _ _ => 0) 4),
        rowSub (fun _ => 0) (genSigmaFactor (fun _ => (fun _ => 0, fun _ _ => 0))
          (fun e => e) 1 0 (fun _ _ => 0) (fun _ _ => 0) 5)] := by
  exact gen_sigma_matrix_rows (fun _ => (fun _ => 0, fun _ _ => 0))
    (fun _ => some (fun _ _ => 0)) (fun e => e) 1 0 (fun _ => 0) (fun _ _ => 0)
    (fun _ _ => 0) rfl
